import Mathlib

/-!
Verification of the model-lifecycle and streaming-generation orchestration
layer of the privatgespraech repository: the web-worker inference executor
(`worker.js`, embedded below as `getModelConfig`, `getInstance`,
`token_callback`, `wGenerate`, `wLoad`) and the UI-facing controller
(`App.jsx`, embedded as `AppState`, `onEnter`, `generateEffect`,
`onEditMessage`, `onMessageReceived`).

Machine numbers: JavaScript `performance.now()` timestamps and the derived
throughput values are modelled as rationals; token counters as naturals.
Absent JSON fields (a key missing from a posted message object) are
modelled as `none`.
-/

namespace Privat

/-- A chat role, `role ∈ {user, assistant}`. -/
inductive Role where
  | user
  | assistant
deriving DecidableEq, Repr

/-- One conversation entry: `{role, content}`. -/
structure Message where
  role : Role
  content : String
deriving DecidableEq, Repr

/-- One per-asset download progress record `{file, progress?, total?}`. -/
structure ProgressItem where
  file : String
  progress : Option ℕ := none
  total : Option ℕ := none
deriving DecidableEq, Repr

/-- Events posted by the worker to the main thread (`self.postMessage`),
tagged by their `status` field.  A field absent from the posted object is
`none`; in particular `update` events built by the worker never populate
`contextTokens` (the object literal in `callback_function` has no such key). -/
inductive Event where
  | loading (data : String)
  | initiate (item : ProgressItem)
  | progress (item : ProgressItem)
  | done (file : String)
  | ready
  | unsupported_model (data : String) (model_id : String)
  | start
  | update (output : String) (tps : Option ℚ) (numTokens : ℕ) (contextTokens : Option ℕ)
  | complete (output : String)
  | error (data : String)
deriving DecidableEq, Repr

/-- Commands posted by the controller to the worker, tagged by `type`. -/
inductive Command where
  | check
  | load (model_id : String)
  | generate (data : List Message) (model_id : String)
  | interrupt
  | reset
deriving DecidableEq, Repr

/-- JavaScript `s.includes(pat)`: `pat` occurs as a substring of `s`. -/
def jsIncludes (s pat : String) : Bool :=
  decide (List.IsInfix pat.toList s.toList)

/-! ### Executor: TextGenerationPipeline -/

/-- Per-model execution configuration, as in `getModelConfig`'s table. -/
structure ModelConfig where
  dtype : String
  device : String
  use_external_data_format : Bool := false
deriving DecidableEq, Repr

/-- The `configs` table of `TextGenerationPipeline.getModelConfig`.
The source throws `Unsupported model: ${model_id}` when the id is absent;
here absence is `none` and the caller raises the error. -/
def getModelConfig (model_id : String) : Option ModelConfig :=
  if model_id = "onnx-community/Llama-3.2-1B-Instruct-q4f16" then
    some { dtype := "q4f16", device := "webgpu" }
  else if model_id = "onnx-community/Llama-3.2-3B-Instruct-onnx-web-gqa" then
    some { dtype := "q4f16", device := "webgpu" }
  else if model_id = "onnx-community/Phi-3.5-mini-instruct-onnx-web" then
    some { dtype := "q4f16", device := "webgpu", use_external_data_format := true }
  else if model_id = "HuggingFaceTB/SmolLM2-1.7B-Instruct" then
    some { dtype := "q4f16", device := "webgpu" }
  else if model_id = "onnx-community/Qwen3-0.6B-ONNX" then
    some { dtype := "q4f16", device := "webgpu" }
  else if model_id = "onnx-community/DeepSeek-R1-Distill-Qwen-1.5B-ONNX" then
    some { dtype := "q4f16", device := "webgpu" }
  else
    none

/-- The static fields of `TextGenerationPipeline`.  A cached handle is
represented by the model id it was created for (`AutoTokenizer.from_pretrained(model_id, ...)`
and `AutoModelForCausalLM.from_pretrained(model_id, ...)` are keyed by that id). -/
structure PipelineState where
  current_model_id : Option String
  tokenizer : Option String
  model : Option String
deriving DecidableEq, Repr

/-- Initial static state of `TextGenerationPipeline` (all fields `null`). -/
def initPipeline : PipelineState := ⟨none, none, none⟩

/-- `TextGenerationPipeline.getInstance`, step for step:
first, if the requested id differs from `current_model_id`, both cached
handles are cleared and the new id recorded; only then is the execution
configuration looked up (throwing for an unknown id — returned as
`Except.error` with the thrown message); finally each still-missing handle
is created with `??=`.  The returned booleans record whether the
tokenizer (resp. model) was freshly created by this call. -/
def getInstance (model_id : String) (p : PipelineState) :
    PipelineState × Except String (Bool × Bool) :=
  let p1 := if p.current_model_id ≠ some model_id then
    { current_model_id := some model_id, tokenizer := none, model := none }
  else p
  match getModelConfig model_id with
  | none => (p1, Except.error ("Unsupported model: " ++ model_id))
  | some _ =>
    let freshTok := p1.tokenizer.isNone
    let freshModel := p1.model.isNone
    ({ p1 with tokenizer := some model_id, model := some model_id },
      Except.ok (freshTok, freshModel))

/-! ### Executor: streaming generation -/

/-- The mutable locals of `generate` that the streamer callbacks close over:
`startTime` (unset until the first token), `numTokens`, `tps` (unset until
computed). -/
structure StreamState where
  startTime : Option ℚ
  numTokens : ℕ
  tps : Option ℚ
deriving DecidableEq, Repr

/-- Initial callback state: `startTime` undefined, `numTokens = 0`,
`tps` undefined. -/
def initStream : StreamState := ⟨none, 0, none⟩

/-- `token_callback_function`, invoked once per produced token at wall-clock
time `now`:
`startTime ??= performance.now(); if (numTokens++ > 0) { tps = numTokens / (performance.now() - startTime) * 1000 }`.
Note the guard reads the pre-increment count while the formula uses the
post-increment count. -/
def token_callback (now : ℚ) (s : StreamState) : StreamState :=
  let start := s.startTime.getD now
  let n := s.numTokens + 1
  { startTime := some start
    numTokens := n
    tps := if 0 < s.numTokens then some ((n : ℚ) / (now - start) * 1000) else s.tps }

/-- Folding the token callback over a list of token production times. -/
def runTokens (ts : List ℚ) : StreamState :=
  ts.foldl (fun s t => token_callback t s) initStream

/-- One streamed token as delivered by the external `TextStreamer`: its
production time and the decoded text delta passed to `callback_function`. -/
structure Chunk where
  time : ℚ
  text : String
deriving DecidableEq, Repr

/-- The event stream produced by the `TextStreamer` callbacks: for each token,
`token_callback_function` advances the counter state, then
`callback_function` posts `{status: "update", output, tps, numTokens}` —
with no `contextTokens` key, hence `none` in that position. -/
def streamSteps : List Chunk → StreamState → List Event
  | [], _ => []
  | c :: cs, s =>
    let s1 := token_callback c.time s
    Event.update c.text s1.tps s1.numTokens none :: streamSteps cs s1

/-- The worker's `generate(messages, model_id)` body, parameterised by the
token stream the external runtime produces (`chunks`; an `interrupt` makes
this a prefix of the uninterrupted stream) and the final
`tokenizer.batch_decode` result (`decoded`).  It awaits `getInstance`
(without a progress callback), posts `{status: "start"}`, streams updates,
and posts `{status: "complete", output: decoded}`.  `generate` has no
try/catch: if `getInstance` throws (unknown model id) the rejection is
unhandled and no event at all is posted — though the cache mutation of
`getInstance` has already happened. -/
def wGenerate (model_id : String) (chunks : List Chunk) (decoded : String)
    (p : PipelineState) : PipelineState × List Event :=
  let r := getInstance model_id p
  match r.2 with
  | Except.error _ => (r.1, [])
  | Except.ok _ =>
    (r.1, Event.start :: streamSteps chunks initStream ++ [Event.complete decoded])

/-! ### Executor: load -/

/-- A per-asset progress event forwarded by `from_pretrained`'s
`progress_callback` and re-posted verbatim by `load`. -/
inductive AssetEvt where
  | initiate (item : ProgressItem)
  | progress (item : ProgressItem)
  | done (file : String)
deriving DecidableEq, Repr

/-- Re-posting an asset event on the worker's outgoing channel. -/
def assetToEvent : AssetEvt → Event
  | AssetEvt.initiate item => Event.initiate item
  | AssetEvt.progress item => Event.progress item
  | AssetEvt.done file => Event.done file

/-- Behaviour of the external ML runtime during one `load`: the asset
progress events it reports, and `some msg` when downloading/initialisation
or the warm-up inference rejects with an error whose `.message` is `msg`. -/
structure ExtLoad where
  progressEvents : List AssetEvt
  failure : Option String
deriving DecidableEq, Repr

/-- The catch block of `load`: `error.toString()` is posted as `data`
(an `Error`'s `toString` is `"Error: " ++ message`), dispatched on
`error.message.includes('Unsupported model:')`. -/
def catchLoadError (msg model_id : String) : Event :=
  if jsIncludes msg "Unsupported model:" then
    Event.unsupported_model ("Error: " ++ msg) model_id
  else
    Event.error ("Error: " ++ msg)

/-- The worker's `load(model_id)` body: posts `loading`, awaits
`getInstance` (forwarding asset progress events), posts the second
`loading` phase message and runs the warm-up inference, then posts
`ready`; any error thrown along the way is caught and posted via
`catchLoadError`.  When `getInstance` throws the unknown-model error no
asset was ever requested, so no progress event precedes the catch. -/
def wLoad (model_id : String) (ext : ExtLoad) (p : PipelineState) :
    PipelineState × List Event :=
  let r := getInstance model_id p
  match r.2 with
  | Except.error msg =>
    (r.1, [Event.loading "Loading model..."] ++ [catchLoadError msg model_id])
  | Except.ok _ =>
    match ext.failure with
    | some msg =>
      (r.1, [Event.loading "Loading model..."] ++ ext.progressEvents.map assetToEvent
        ++ [catchLoadError msg model_id])
    | none =>
      (r.1, [Event.loading "Loading model..."] ++ ext.progressEvents.map assetToEvent
        ++ [Event.loading "Compiling shaders and warming up model...", Event.ready])

/-! ### Event classifiers -/

/-- Event is a `start` event. -/
def isStart : Event → Bool
  | Event.start => true
  | _ => false

/-- Event is a `complete` event. -/
def isComplete : Event → Bool
  | Event.complete _ => true
  | _ => false

/-- Event is an `update` event. -/
def isUpdate : Event → Bool
  | Event.update _ _ _ _ => true
  | _ => false

/-- Event is an `unsupported_model` event. -/
def isUnsupported : Event → Bool
  | Event.unsupported_model _ _ => true
  | _ => false

/-- Event is a generic `error` event. -/
def isError : Event → Bool
  | Event.error _ => true
  | _ => false

/-! ### Controller (App.jsx) -/

/-- Controller status values; the source uses the strings `"loading"` and
`"ready"`, with `null` (here `none` at use sites) as the initial/reset value. -/
inductive St where
  | loading
  | ready
deriving DecidableEq, Repr

/-- The controller's state variables (the `useState` hooks of `App`). -/
structure AppState where
  status : Option St
  error : Option String
  loadingMessage : String
  progressItems : List ProgressItem
  isRunning : Bool
  selectedModel : String
  showModelSelectionModal : Bool
  input : String
  messages : List Message
  queuedMessage : Option String
  tps : Option ℚ
  numTokens : Option ℕ
  contextTokens : Option ℕ
deriving DecidableEq, Repr

/-- The controller's initial state: `status = null`, empty history, no
queued message, and the default model selection. -/
def baseState : AppState where
  status := none
  error := none
  loadingMessage := ""
  progressItems := []
  isRunning := false
  selectedModel := "onnx-community/Llama-3.2-1B-Instruct-q4f16"
  showModelSelectionModal := false
  input := ""
  messages := []
  queuedMessage := none
  tps := none
  numTokens := none
  contextTokens := none

/-- JavaScript truthiness of the `queuedMessage` state variable: `null`
and the empty string are falsy. -/
def jsTruthy : Option String → Bool
  | none => false
  | some s => decide (s ≠ "")

/-- `cloned[cloned.length - 1] = {...last, content: last.content + output}`
from the `update` case (no-op on an empty list, where the source would
fault; `update` events only arrive after `start` appended an entry). -/
def appendToLast (ms : List Message) (o : String) : List Message :=
  match ms.getLast? with
  | none => ms
  | some last => ms.dropLast ++ [{ last with content := last.content ++ o }]

/-- The worker-message handler `onMessageReceived` of `App.jsx`.  All
branches mutate state through stable setters or functional updates except
the `ready` branch, which reads the `queuedMessage` state variable
directly; because the handler is created inside `useEffect(..., [])` it
closes over the value of the render in which it was registered, passed
here as `capturedQueuedMessage`. -/
def onMessageReceived (capturedQueuedMessage : Option String)
    (s : AppState) : Event → AppState
  | Event.loading d => { s with status := some St.loading, loadingMessage := d }
  | Event.initiate item => { s with progressItems := s.progressItems ++ [item] }
  | Event.progress item =>
    { s with progressItems :=
        s.progressItems.map (fun it => if it.file = item.file then item else it) }
  | Event.done f =>
    { s with progressItems := s.progressItems.filter (fun it => it.file != f) }
  | Event.ready =>
    let s1 := { s with status := some St.ready }
    if jsTruthy capturedQueuedMessage then
      { s1 with queuedMessage := none, isRunning := true }
    else s1
  | Event.start =>
    { s with isRunning := true,
             messages := s.messages ++ [{ role := Role.assistant, content := "" }] }
  | Event.update o tps n ctx =>
    { s with tps := tps, numTokens := some n, contextTokens := ctx,
             messages := appendToLast s.messages o }
  | Event.complete _ => { s with isRunning := false }
  | Event.error d => { s with error := some d, status := none, isRunning := false }
  | Event.unsupported_model _ _ =>
    { s with error := none, status := none, isRunning := false,
             progressItems := [], showModelSelectionModal := true }

/-- The handler as actually registered by the app: the mount-time effect
(`useEffect` with an empty dependency array) runs once, after the first
render, where `queuedMessage` is its initial value `null`; the listener is
never re-registered, so every received event is handled with that stale
snapshot. -/
def appHandler (s : AppState) (e : Event) : AppState :=
  onMessageReceived none s e

/-- Folding a sequence of worker events through the registered handler. -/
def processEvents (s : AppState) (es : List Event) : AppState :=
  es.foldl appHandler s

/-- `onEnter(message)`: reject when loading with a (truthy) queued message;
otherwise append the user message, clear `tps` and the input box; if not
ready, queue the message and, if not already loading, switch to loading and
post `load`; if ready, set `isRunning`. -/
def onEnter (s : AppState) (message : String) : AppState × List Command :=
  if s.status = some St.loading ∧ jsTruthy s.queuedMessage then (s, [])
  else
    let s1 := { s with messages := s.messages ++ [(⟨Role.user, message⟩ : Message)],
                       tps := none, input := "" }
    if s1.status ≠ some St.ready then
      let s2 := { s1 with queuedMessage := some message }
      if s2.status ≠ some St.loading then
        ({ s2 with status := some St.loading }, [Command.load s2.selectedModel])
      else (s2, [])
    else ({ s1 with isRunning := true }, [])

/-- The `useEffect` with dependencies `[messages, isRunning, selectedModel]`:
when there is at least one user message and the last entry is not from the
assistant, clear `tps` and post `generate` with the full history and the
selected model.  The body contains no check of `status` — it fires even
while a model load is pending. -/
def generateEffect (s : AppState) : AppState × List Command :=
  if (s.messages.filter (fun m => m.role == Role.user)).length = 0 then (s, [])
  else
    match s.messages.getLast? with
    | none => (s, [])
    | some m =>
      if m.role = Role.assistant then (s, [])
      else ({ s with tps := none }, [Command.generate s.messages s.selectedModel])

/-- A user submission as observed end to end: the `onEnter` call followed by
the re-render reaction `generateEffect`, which runs exactly when its
dependencies changed (a rejected `onEnter` leaves `messages` untouched, so
the effect does not re-fire). -/
def submit (s : AppState) (message : String) : AppState × List Command :=
  let r := onEnter s message
  if r.1.messages = s.messages then r
  else
    let r2 := generateEffect r.1
    (r2.1, r.2 ++ r2.2)

/-- `onEditMessage(messageIndex, newContent)`: replace the content of the
message at the index, truncate the history to that index inclusive, clear
`tps`/`numTokens`, and set `isRunning` when the model is ready.  The UI
only invokes this with an index of an existing message; out of range the
embedding leaves the state unchanged. -/
def onEditMessage (s : AppState) (i : ℕ) (newContent : String) : AppState :=
  match s.messages[i]? with
  | none => s
  | some msg =>
    let v : Message := { msg with content := newContent }
    let truncated := (s.messages.set i v).take (i + 1)
    let s1 := { s with messages := truncated, tps := none, numTokens := none }
    if s1.status = some St.ready then { s1 with isRunning := true } else s1

/-! ### Generation event sequences as seen by the controller -/

/-- The payload of one `update` event for feeding the controller. -/
structure UpdatePayload where
  output : String
  tps : Option ℚ := none
  numTokens : ℕ := 0
  contextTokens : Option ℕ := none
deriving DecidableEq, Repr

/-- An `update` event from its payload. -/
def mkUpdate (p : UpdatePayload) : Event :=
  Event.update p.output p.tps p.numTokens p.contextTokens

/-- The event sequence of one generation as delivered to the controller:
`start`, the updates, then `complete` with the final decoded text. -/
def generationEvents (ps : List UpdatePayload) (final : String) : List Event :=
  Event.start :: ps.map mkUpdate ++ [Event.complete final]

/-- In-order concatenation of the output deltas of a run's updates. -/
def concatOutputs (ps : List UpdatePayload) : String :=
  ps.foldl (fun acc p => acc ++ p.output) ""

/-! ### Helper lemmas -/

/-- Every event emitted by the streamer callbacks is an `update`. -/
theorem streamSteps_all_update (cs : List Chunk) :
    ∀ (s : StreamState), ∀ e ∈ streamSteps cs s, isUpdate e = true := by
  induction cs with
  | nil => intro s e he; simp [streamSteps] at he
  | cons c cs ih =>
    intro s e he
    simp only [streamSteps, List.mem_cons] at he
    rcases he with rfl | he
    · rfl
    · exact ih _ e he

/-- The `update` handler rewrites exactly the last history entry. -/
theorem appendToLast_concat (init : List Message) (last : Message) (o : String) :
    appendToLast (init ++ [last]) o
      = init ++ [{ last with content := last.content ++ o }] := by
  simp [appendToLast, List.getLast?_concat, List.dropLast_concat]

/-- Processing a run of `update` events folds the deltas onto the last
entry's content and leaves `isRunning` untouched. -/
theorem processEvents_updates (ps : List UpdatePayload) :
    ∀ (s : AppState) (init : List Message) (last : Message),
      s.messages = init ++ [last] →
      (processEvents s (ps.map mkUpdate)).messages
          = init ++ [{ last with content := ps.foldl (fun acc p => acc ++ p.output) last.content }]
        ∧ (processEvents s (ps.map mkUpdate)).isRunning = s.isRunning := by
  induction ps with
  | nil =>
    intro s init last h
    exact ⟨h, rfl⟩
  | cons p ps ih =>
    intro s init last h
    have hmsg : (appHandler s (mkUpdate p)).messages
        = init ++ [{ last with content := last.content ++ p.output }] := by
      simp only [appHandler, onMessageReceived, mkUpdate]
      rw [h, appendToLast_concat]
    have hstep := ih (appHandler s (mkUpdate p)) init
      { last with content := last.content ++ p.output } hmsg
    exact ⟨hstep.1, hstep.2⟩

/-- Processing a full generation event sequence appends one assistant entry
holding the concatenated deltas and ends with `isRunning = false`. -/
theorem processEvents_generation (s : AppState) (ps : List UpdatePayload) (final : String) :
    (processEvents s (generationEvents ps final)).messages
        = s.messages ++ [⟨Role.assistant, concatOutputs ps⟩]
    ∧ (processEvents s (generationEvents ps final)).isRunning = false := by
  have hstart : (appHandler s Event.start).messages
      = s.messages ++ [(⟨Role.assistant, ""⟩ : Message)] := rfl
  have hmain := processEvents_updates ps (appHandler s Event.start)
    s.messages ⟨Role.assistant, ""⟩ hstart
  have hsplit : processEvents s (generationEvents ps final)
      = appHandler (processEvents (appHandler s Event.start) (ps.map mkUpdate))
          (Event.complete final) := by
    simp [processEvents, generationEvents, List.foldl_append]
  constructor
  · rw [hsplit]
    exact hmain.1
  · rw [hsplit]
    rfl

/-! ### Claim theorems -/

/-- C9: the final content of an assistant message equals the in-order
concatenation of the output deltas of the run's `update` events; the
`complete` event's output payload is never used for message content — on
`complete` the controller only sets `isRunning` to `false`. -/
theorem assistant_content_from_update_deltas (s : AppState) (ps : List UpdatePayload)
    (final : String) :
    (processEvents s (generationEvents ps final)).messages
        = s.messages ++ [⟨Role.assistant, concatOutputs ps⟩]
    ∧ (processEvents s (generationEvents ps final)).isRunning = false
    ∧ appHandler s (Event.complete final) = { s with isRunning := false } := by
  refine ⟨(processEvents_generation s ps final).1, (processEvents_generation s ps final).2, rfl⟩

/-- C2 (code bug): a message submitted while `status = loading` is indeed
stored as `queuedMessage`, but the `messages`-change effect carries no
status guard, so the `generate` command is posted to the executor
immediately — before any `ready` event — contradicting the claimed
deferral of `generate` until `ready` is observed. -/
theorem generate_command_sent_while_loading :
    submit { baseState with status := some St.loading } "hello"
      = ({ baseState with
             status := some St.loading,
             messages := [⟨Role.user, "hello"⟩],
             queuedMessage := some "hello" },
         [Command.generate [⟨Role.user, "hello"⟩]
            "onnx-community/Llama-3.2-1B-Instruct-q4f16"]) := by
  rfl

/-- C3 (code bug): the worker message listener is registered once, in a
mount-time effect with an empty dependency array, so its `ready` branch
reads the `queuedMessage` value captured at first render — `null`.  On a
`ready` event received while a message is actually queued, the handler
therefore only changes `status`: the queued message is not cleared and
`isRunning` is not set, contrary to the claim. -/
theorem ready_event_ignores_pending_queued_message :
    appHandler
        { baseState with
            status := some St.loading,
            queuedMessage := some "hello",
            messages := [⟨Role.user, "hello"⟩] }
        Event.ready
      = { baseState with
            status := some St.ready,
            queuedMessage := some "hello",
            messages := [⟨Role.user, "hello"⟩] } := by
  rfl

/-- C4 (code bug): the worker's `callback_function` posts `update` events
containing only `output`, `tps` and `numTokens`; no `contextTokens` field
is ever present (`none` in the embedding), even though the controller
destructures and displays one.  Concretely, a one-token generation emits
an `update` whose `contextTokens` position is `none`. -/
theorem update_event_carries_no_context_tokens :
    (wGenerate "onnx-community/Qwen3-0.6B-ONNX" [⟨0, "Hello"⟩] "Hello" initPipeline).2
      = [Event.start, Event.update "Hello" none 1 none, Event.complete "Hello"] := by
  rfl

/-- C5: an `onEnter` call made while `status = loading` with a queued
message already present returns without appending to `messages`, without
changing `queuedMessage`, and without posting any command; the follow-up
render effect does not fire either since `messages` did not change. -/
theorem second_submission_while_queued_rejected (s : AppState) (m q : String)
    (hload : s.status = some St.loading) (hq : s.queuedMessage = some q) (hq' : q ≠ "") :
    onEnter s m = (s, []) ∧ submit s m = (s, []) := by
  have hcond : s.status = some St.loading ∧ jsTruthy s.queuedMessage := by
    refine ⟨hload, ?_⟩
    rw [hq]
    simp [jsTruthy, hq']
  have h1 : onEnter s m = (s, []) := by
    unfold onEnter
    rw [if_pos hcond]
  refine ⟨h1, ?_⟩
  simp [submit, h1]

/-- Closed witness for C5 at a concrete loading state with message "q"
already queued. -/
theorem second_submission_while_queued_rejected_witness :
    ({ baseState with status := some St.loading, queuedMessage := some "q" } : AppState).status
        = some St.loading
    ∧ ({ baseState with status := some St.loading, queuedMessage := some "q" } : AppState).queuedMessage
        = some "q"
    ∧ ("q" : String) ≠ ""
    ∧ (onEnter { baseState with status := some St.loading, queuedMessage := some "q" } "m"
        = ({ baseState with status := some St.loading, queuedMessage := some "q" }, [])
      ∧ submit { baseState with status := some St.loading, queuedMessage := some "q" } "m"
        = ({ baseState with status := some St.loading, queuedMessage := some "q" }, [])) :=
  ⟨rfl, rfl, by decide,
    second_submission_while_queued_rejected
      { baseState with status := some St.loading, queuedMessage := some "q" }
      "m" "q" rfl rfl (by decide)⟩

/-- The cache-consistency invariant: any cached handle belongs to the
currently recorded model identifier. -/
def pipelineInv (p : PipelineState) : Prop :=
  (∀ t, p.tokenizer = some t → p.current_model_id = some t)
  ∧ (∀ m, p.model = some m → p.current_model_id = some m)

/-- C10: `getInstance` records the requested identifier and clears both
handles before the configuration is validated, so an unknown-identifier
call leaves an empty cache keyed by the unknown id; the concrete
load-A / load-unknown / load-A sequence reloads both handles from scratch
(both freshness flags `true`); and the invariant that cached handles are
never retained under a mismatched identifier is preserved by every call. -/
theorem cache_identifier_consistency (p : PipelineState) (id : String)
    (h : pipelineInv p) :
    pipelineInv (getInstance id p).1
    ∧ (getModelConfig id = none → p.current_model_id ≠ some id →
        (getInstance id p).1 = ⟨some id, none, none⟩)
    ∧ (getInstance "unknown/model"
          (getInstance "onnx-community/Llama-3.2-1B-Instruct-q4f16" initPipeline).1).1
        = ⟨some "unknown/model", none, none⟩
    ∧ getInstance "onnx-community/Llama-3.2-1B-Instruct-q4f16"
          (getInstance "unknown/model"
            (getInstance "onnx-community/Llama-3.2-1B-Instruct-q4f16" initPipeline).1).1
        = (⟨some "onnx-community/Llama-3.2-1B-Instruct-q4f16",
            some "onnx-community/Llama-3.2-1B-Instruct-q4f16",
            some "onnx-community/Llama-3.2-1B-Instruct-q4f16"⟩,
           Except.ok (true, true)) := by
  refine ⟨?_, ?_, rfl, rfl⟩
  · unfold getInstance
    by_cases hc : p.current_model_id = some id
    · simp only [hc, ne_eq, not_true_eq_false, if_neg, not_false_eq_true, if_false]
      cases hcfg : getModelConfig id with
      | none => simpa [hcfg] using h
      | some cfg =>
        simp only [hcfg]
        constructor
        · intro t ht
          cases ht
          rfl
        · intro m hm
          cases hm
          rfl
    · simp only [ne_eq, hc, not_false_eq_true, if_pos, if_true]
      cases hcfg : getModelConfig id with
      | none =>
        simp only [hcfg]
        constructor
        · intro t ht; cases ht
        · intro m hm; cases hm
      | some cfg =>
        simp only [hcfg]
        constructor
        · intro t ht; cases ht; rfl
        · intro m hm; cases hm; rfl
  · intro hcfg hne
    unfold getInstance
    simp only [ne_eq, hne, not_false_eq_true, if_pos, if_true, hcfg]

/-- Closed witness for C10 at the empty initial pipeline state. -/
theorem cache_identifier_consistency_witness :
    pipelineInv initPipeline
    ∧ (pipelineInv (getInstance "unknown/model" initPipeline).1
      ∧ (getModelConfig "unknown/model" = none →
          initPipeline.current_model_id ≠ some "unknown/model" →
          (getInstance "unknown/model" initPipeline).1 = ⟨some "unknown/model", none, none⟩)
      ∧ (getInstance "unknown/model"
            (getInstance "onnx-community/Llama-3.2-1B-Instruct-q4f16" initPipeline).1).1
          = ⟨some "unknown/model", none, none⟩
      ∧ getInstance "onnx-community/Llama-3.2-1B-Instruct-q4f16"
            (getInstance "unknown/model"
              (getInstance "onnx-community/Llama-3.2-1B-Instruct-q4f16" initPipeline).1).1
          = (⟨some "onnx-community/Llama-3.2-1B-Instruct-q4f16",
              some "onnx-community/Llama-3.2-1B-Instruct-q4f16",
              some "onnx-community/Llama-3.2-1B-Instruct-q4f16"⟩,
             Except.ok (true, true))) :=
  have hinv : pipelineInv initPipeline := by
    constructor
    · intro t ht; cases ht
    · intro m hm; cases hm
  ⟨hinv, cache_identifier_consistency initPipeline "unknown/model" hinv⟩

/-- For a model with a known execution configuration, `generate` emits the
literal sequence `start`, the streamed updates, `complete decoded`. -/
theorem wGenerate_events_of_known (model_id : String) (cfg : ModelConfig)
    (h : getModelConfig model_id = some cfg) (cs : List Chunk) (d : String)
    (p : PipelineState) :
    (wGenerate model_id cs d p).2
      = Event.start :: streamSteps cs initStream ++ [Event.complete d] := by
  simp [wGenerate, getInstance, h]

/-- A list of streamer events contains no `start` events. -/
theorem streamSteps_countP_isStart (cs : List Chunk) (s : StreamState) :
    (streamSteps cs s).countP isStart = 0 := by
  rw [List.countP_eq_zero]
  intro e he
  have hu := streamSteps_all_update cs s e he
  cases e <;> simp_all [isUpdate, isStart]

/-- A list of streamer events contains no `complete` events. -/
theorem streamSteps_countP_isComplete (cs : List Chunk) (s : StreamState) :
    (streamSteps cs s).countP isComplete = 0 := by
  rw [List.countP_eq_zero]
  intro e he
  have hu := streamSteps_all_update cs s e he
  cases e <;> simp_all [isUpdate, isComplete]

/-- C1: for every `generate` processed with a known model, the emitted
sequence is exactly one `start` first, then only `update` events, then
exactly one terminal `complete` — also for every interrupted run, modelled
as the truncation of the token stream to a prefix (`chunks.take k`): the
output is shortened but `complete` is still last, and no `update` follows
it. -/
theorem generate_start_updates_complete (model_id : String) (cfg : ModelConfig)
    (h : getModelConfig model_id = some cfg) (p : PipelineState)
    (chunks : List Chunk) (k : ℕ) (decoded : String) :
    ((wGenerate model_id (chunks.take k) decoded p).2).head? = some Event.start
    ∧ ((wGenerate model_id (chunks.take k) decoded p).2).countP isStart = 1
    ∧ ((wGenerate model_id (chunks.take k) decoded p).2).countP isComplete = 1
    ∧ ((wGenerate model_id (chunks.take k) decoded p).2).getLast?
        = some (Event.complete decoded)
    ∧ ∀ e ∈ (((wGenerate model_id (chunks.take k) decoded p).2).drop 1).dropLast,
        isUpdate e = true := by
  have he := wGenerate_events_of_known model_id cfg h (chunks.take k) decoded p
  rw [he]
  refine ⟨rfl, ?_, ?_, ?_, ?_⟩
  · simp [List.countP_cons, List.countP_append, isStart,
      streamSteps_countP_isStart]
  · simp [List.countP_cons, List.countP_append, isComplete,
      streamSteps_countP_isComplete]
  · rw [show Event.start :: streamSteps (chunks.take k) initStream ++ [Event.complete decoded]
        = (Event.start :: streamSteps (chunks.take k) initStream) ++ [Event.complete decoded]
      from rfl]
    exact List.getLast?_concat _
  · intro e he'
    rw [List.cons_append, List.drop_one, List.tail_cons, List.dropLast_concat] at he'
    exact streamSteps_all_update _ _ e he'

/-- Closed witness for C1: a one-token generation of a catalogued model,
interrupted after the first token. -/
theorem generate_start_updates_complete_witness :
    getModelConfig "onnx-community/Qwen3-0.6B-ONNX"
        = some { dtype := "q4f16", device := "webgpu" }
    ∧ (((wGenerate "onnx-community/Qwen3-0.6B-ONNX" (List.take 1 [⟨0, "Hi"⟩]) "Hi"
          initPipeline).2).head? = some Event.start
      ∧ ((wGenerate "onnx-community/Qwen3-0.6B-ONNX" (List.take 1 [⟨0, "Hi"⟩]) "Hi"
          initPipeline).2).countP isStart = 1
      ∧ ((wGenerate "onnx-community/Qwen3-0.6B-ONNX" (List.take 1 [⟨0, "Hi"⟩]) "Hi"
          initPipeline).2).countP isComplete = 1
      ∧ ((wGenerate "onnx-community/Qwen3-0.6B-ONNX" (List.take 1 [⟨0, "Hi"⟩]) "Hi"
          initPipeline).2).getLast? = some (Event.complete "Hi")
      ∧ ∀ e ∈ (((wGenerate "onnx-community/Qwen3-0.6B-ONNX" (List.take 1 [⟨0, "Hi"⟩]) "Hi"
          initPipeline).2).drop 1).dropLast, isUpdate e = true) :=
  ⟨rfl, generate_start_updates_complete "onnx-community/Qwen3-0.6B-ONNX"
    { dtype := "q4f16", device := "webgpu" } rfl initPipeline [⟨0, "Hi"⟩] 1 "Hi"⟩

/-- Asset progress events are never `unsupported_model` events. -/
theorem assetToEvent_not_unsupported (a : AssetEvt) :
    isUnsupported (assetToEvent a) = false := by
  cases a <;> rfl

/-- Asset progress events are never generic `error` events. -/
theorem assetToEvent_not_error (a : AssetEvt) :
    isError (assetToEvent a) = false := by
  cases a <;> rfl

/-- The thrown unknown-model message always contains the marker substring
the catch block tests for. -/
theorem jsIncludes_marker (bad : String) :
    jsIncludes ("Unsupported model: " ++ bad) "Unsupported model:" = true := by
  simp only [jsIncludes, decide_eq_true_eq]
  have h : ("Unsupported model: " ++ bad).toList
      = "Unsupported model:".toList ++ (' ' :: bad.toList) := rfl
  rw [h]
  exact (List.prefix_append _ _).isInfix

/-- C7: a `load` whose identifier has no execution configuration posts the
`loading` phase message followed by exactly one `unsupported_model` event
whose `model_id` field is the requested identifier, and no generic `error`
event; a `load` of a known identifier that fails externally (with an error
message not containing the marker substring) posts exactly one generic
`error` event and no `unsupported_model` event. -/
theorem unsupported_vs_generic_load_errors (p : PipelineState) (ext : ExtLoad)
    (bad good msg : String)
    (hbad : getModelConfig bad = none)
    (hgood : ∃ cfg, getModelConfig good = some cfg)
    (hfail : ext.failure = some msg)
    (hmsg : jsIncludes msg "Unsupported model:" = false) :
    (wLoad bad ext p).2
        = [Event.loading "Loading model...",
           Event.unsupported_model ("Error: " ++ ("Unsupported model: " ++ bad)) bad]
    ∧ ((wLoad bad ext p).2).countP isUnsupported = 1
    ∧ ((wLoad bad ext p).2).countP isError = 0
    ∧ ((wLoad good ext p).2).countP isError = 1
    ∧ ((wLoad good ext p).2).countP isUnsupported = 0 := by
  obtain ⟨cfg, hcfg⟩ := hgood
  have hbadEvents : (wLoad bad ext p).2
      = [Event.loading "Loading model...",
         Event.unsupported_model ("Error: " ++ ("Unsupported model: " ++ bad)) bad] := by
    simp [wLoad, getInstance, hbad, catchLoadError, jsIncludes_marker]
  have hgoodEvents : (wLoad good ext p).2
      = Event.loading "Loading model..." :: ext.progressEvents.map assetToEvent
          ++ [Event.error ("Error: " ++ msg)] := by
    simp [wLoad, getInstance, hcfg, hfail, catchLoadError, hmsg]
  refine ⟨hbadEvents, ?_, ?_, ?_, ?_⟩
  · rw [hbadEvents]; rfl
  · rw [hbadEvents]; rfl
  · rw [hgoodEvents]
    simp only [List.countP_cons, List.countP_append]
    have h0 : (ext.progressEvents.map assetToEvent).countP isError = 0 := by
      rw [List.countP_eq_zero]
      intro e he
      obtain ⟨a, _, rfl⟩ := List.mem_map.mp he
      simp [assetToEvent_not_error]
    simp [h0, isError]
  · rw [hgoodEvents]
    simp only [List.countP_cons, List.countP_append]
    have h0 : (ext.progressEvents.map assetToEvent).countP isUnsupported = 0 := by
      rw [List.countP_eq_zero]
      intro e he
      obtain ⟨a, _, rfl⟩ := List.mem_map.mp he
      simp [assetToEvent_not_unsupported]
    simp [h0, isUnsupported]

/-- Closed witness for C7: an unknown identifier and a catalogued one with
an external download failure. -/
theorem unsupported_vs_generic_load_errors_witness :
    getModelConfig "foo/bar" = none
    ∧ (∃ cfg, getModelConfig "onnx-community/Qwen3-0.6B-ONNX" = some cfg)
    ∧ (ExtLoad.mk [] (some "network down")).failure = some "network down"
    ∧ jsIncludes "network down" "Unsupported model:" = false
    ∧ ((wLoad "foo/bar" (ExtLoad.mk [] (some "network down")) initPipeline).2
          = [Event.loading "Loading model...",
             Event.unsupported_model ("Error: " ++ ("Unsupported model: " ++ "foo/bar")) "foo/bar"]
      ∧ ((wLoad "foo/bar" (ExtLoad.mk [] (some "network down")) initPipeline).2).countP
          isUnsupported = 1
      ∧ ((wLoad "foo/bar" (ExtLoad.mk [] (some "network down")) initPipeline).2).countP
          isError = 0
      ∧ ((wLoad "onnx-community/Qwen3-0.6B-ONNX"
            (ExtLoad.mk [] (some "network down")) initPipeline).2).countP isError = 1
      ∧ ((wLoad "onnx-community/Qwen3-0.6B-ONNX"
            (ExtLoad.mk [] (some "network down")) initPipeline).2).countP isUnsupported = 0) :=
  ⟨rfl, ⟨{ dtype := "q4f16", device := "webgpu" }, rfl⟩, rfl, by decide,
    unsupported_vs_generic_load_errors initPipeline (ExtLoad.mk [] (some "network down"))
      "foo/bar" "onnx-community/Qwen3-0.6B-ONNX" "network down" rfl
      ⟨{ dtype := "q4f16", device := "webgpu" }, rfl⟩ rfl (by decide)⟩

/-- Once set at the first token, `startTime` never changes. -/
theorem foldTokens_startTime (ts : List ℚ) :
    ∀ (s : StreamState) (t0 : ℚ), s.startTime = some t0 →
      (ts.foldl (fun s t => token_callback t s) s).startTime = some t0 := by
  induction ts with
  | nil => intro s t0 h; exact h
  | cons t ts ih =>
    intro s t0 h
    apply ih
    simp [token_callback, h]

/-- Each token callback increments `numTokens` by one. -/
theorem foldTokens_numTokens (ts : List ℚ) :
    ∀ s : StreamState,
      (ts.foldl (fun s t => token_callback t s) s).numTokens = s.numTokens + ts.length := by
  induction ts with
  | nil => intro s; rfl
  | cons t ts ih =>
    intro s
    rw [List.foldl_cons, ih]
    simp [token_callback]
    omega

/-- C8: after processing the tokens produced at times `t1 :: ts`, the
timing baseline is the first token's time `t1`; `numTokens` counts all
produced tokens; and `tps` is unset until a second token exists, after
which it equals `numTokens / elapsed * 1000` with elapsed measured from
`t1` to the latest token — the first token is excluded from the timing
baseline, and updates posted before the second token carry no `tps`. -/
theorem tps_excludes_first_token_baseline (t1 : ℚ) (ts : List ℚ) :
    (runTokens (t1 :: ts)).startTime = some t1
    ∧ (runTokens (t1 :: ts)).numTokens = ts.length + 1
    ∧ (runTokens (t1 :: ts)).tps
        = ts.getLast?.map (fun t => ((ts.length + 1 : ℚ) / (t - t1)) * 1000)
    ∧ ∀ (c : Chunk) (cs : List Chunk),
        (streamSteps (c :: cs) initStream).head?
          = some (Event.update c.text none 1 none) := by
  have hs1 : (token_callback t1 initStream).startTime = some t1 := rfl
  refine ⟨?_, ?_, ?_, fun c cs => rfl⟩
  · rw [runTokens, List.foldl_cons]
    exact foldTokens_startTime ts _ t1 hs1
  · rw [runTokens, List.foldl_cons, foldTokens_numTokens]
    simp [token_callback, initStream]
    omega
  · rcases List.eq_nil_or_concat' ts with rfl | ⟨L, b, rfl⟩
    · simp [runTokens, token_callback, initStream]
    · have hfold : runTokens (t1 :: (L ++ [b]))
          = token_callback b
              (L.foldl (fun s t => token_callback t s) (token_callback t1 initStream)) := by
        rw [runTokens, List.foldl_cons, List.foldl_append, List.foldl_cons, List.foldl_nil]
      have hmidSt : (L.foldl (fun s t => token_callback t s)
          (token_callback t1 initStream)).startTime = some t1 :=
        foldTokens_startTime L _ t1 hs1
      have hmidN : (L.foldl (fun s t => token_callback t s)
          (token_callback t1 initStream)).numTokens = L.length + 1 := by
        rw [foldTokens_numTokens]
        simp [token_callback, initStream]
        omega
      rw [hfold]
      generalize hM : L.foldl (fun s t => token_callback t s)
          (token_callback t1 initStream) = M at hmidSt hmidN
      simp only [token_callback, hmidSt, hmidN, Option.getD_some]
      rw [if_pos (by omega : 0 < L.length + 1)]
      rw [List.getLast?_concat]
      rw [Option.map_some']
      congr 1
      simp only [List.length_append, List.length_cons, List.length_nil]
      push_cast
      ring

/-- C6: editing the user message at index `i` to text `t` replaces its
content, truncates the history to length `i + 1` leaving all earlier
entries untouched, and (with the model ready) sets `isRunning` and causes
one `generate` command with the truncated history; after the resulting
generation runs to completion, `messages[i].content = t`,
`messages.length = i + 2`, earlier entries are still unchanged, and the
last entry is the fresh assistant reply. -/
theorem edit_truncate_regenerate_roundtrip (s : AppState) (i : ℕ) (t : String)
    (msg : Message) (hmsg : s.messages[i]? = some msg) (hrole : msg.role = Role.user)
    (hready : s.status = some St.ready) (_ht : t ≠ "")
    (ps : List UpdatePayload) (final : String) :
    (onEditMessage s i t).messages.length = i + 1
    ∧ (onEditMessage s i t).messages[i]? = some ⟨msg.role, t⟩
    ∧ (∀ j, j < i → (onEditMessage s i t).messages[j]? = s.messages[j]?)
    ∧ (onEditMessage s i t).isRunning = true
    ∧ (generateEffect (onEditMessage s i t)).2
        = [Command.generate (onEditMessage s i t).messages s.selectedModel]
    ∧ (processEvents (generateEffect (onEditMessage s i t)).1
          (generationEvents ps final)).messages.length = i + 2
    ∧ (processEvents (generateEffect (onEditMessage s i t)).1
          (generationEvents ps final)).messages[i]? = some ⟨msg.role, t⟩
    ∧ (processEvents (generateEffect (onEditMessage s i t)).1
          (generationEvents ps final)).messages[i + 1]?
        = some ⟨Role.assistant, concatOutputs ps⟩
    ∧ (∀ j, j < i → (processEvents (generateEffect (onEditMessage s i t)).1
          (generationEvents ps final)).messages[j]? = s.messages[j]?)
    ∧ (processEvents (generateEffect (onEditMessage s i t)).1
          (generationEvents ps final)).isRunning = false := by
  obtain ⟨hi, -⟩ := List.getElem?_eq_some_iff.mp hmsg
  have hedit : onEditMessage s i t
      = { s with
            messages := (s.messages.set i (⟨msg.role, t⟩ : Message)).take (i + 1),
            tps := none, numTokens := none, isRunning := true } := by
    simp only [onEditMessage, hmsg]
    rw [if_pos hready]
  have hlen1 : ((s.messages.set i (⟨msg.role, t⟩ : Message)).take (i + 1)).length
      = i + 1 := by
    rw [List.length_take, List.length_set, Nat.min_eq_left (by omega)]
  have hgeti : ((s.messages.set i (⟨msg.role, t⟩ : Message)).take (i + 1))[i]?
      = some (⟨msg.role, t⟩ : Message) := by
    rw [List.getElem?_take_of_lt (Nat.lt_succ_self i)]
    exact List.getElem?_set_self hi
  have hgetj : ∀ j, j < i →
      ((s.messages.set i (⟨msg.role, t⟩ : Message)).take (i + 1))[j]?
        = s.messages[j]? := by
    intro j hj
    rw [List.getElem?_take_of_lt (by omega), List.getElem?_set_ne (by omega)]
  have hlast : ((s.messages.set i (⟨msg.role, t⟩ : Message)).take (i + 1)).getLast?
      = some (⟨msg.role, t⟩ : Message) := by
    rw [List.getLast?_eq_getElem?, hlen1]
    simpa using hgeti
  have hvmem : (⟨msg.role, t⟩ : Message)
      ∈ (s.messages.set i (⟨msg.role, t⟩ : Message)).take (i + 1) := by
    exact List.getElem?_mem hgeti
  have hfne : (((s.messages.set i (⟨msg.role, t⟩ : Message)).take (i + 1)).filter
      (fun m => m.role == Role.user)).length ≠ 0 := by
    have hmem2 : (⟨msg.role, t⟩ : Message)
        ∈ ((s.messages.set i (⟨msg.role, t⟩ : Message)).take (i + 1)).filter
            (fun m => m.role == Role.user) :=
      List.mem_filter.mpr ⟨hvmem, by simp [hrole]⟩
    intro h0
    rw [List.length_eq_zero] at h0
    rw [h0] at hmem2
    cases hmem2
  have heff : generateEffect (onEditMessage s i t)
      = ({ onEditMessage s i t with tps := none },
         [Command.generate ((s.messages.set i (⟨msg.role, t⟩ : Message)).take (i + 1))
            s.selectedModel]) := by
    rw [hedit]
    simp only [generateEffect]
    rw [if_neg hfne]
    simp only [hlast]
    rw [if_neg (by rw [hrole]; exact fun h => Role.noConfusion h)]
  have hmsgs : (generateEffect (onEditMessage s i t)).1.messages
      = (s.messages.set i (⟨msg.role, t⟩ : Message)).take (i + 1) := by
    rw [heff, hedit]
  have hgen := processEvents_generation (generateEffect (onEditMessage s i t)).1 ps final
  rw [hmsgs] at hgen
  refine ⟨?_, ?_, ?_, ?_, ?_, ?_, ?_, ?_, ?_, hgen.2⟩
  · rw [hedit]; exact hlen1
  · rw [hedit]; exact hgeti
  · intro j hj; rw [hedit]; exact hgetj j hj
  · rw [hedit]
  · rw [heff, hedit]
  · rw [hgen.1, List.length_append, hlen1]
    rfl
  · rw [hgen.1, List.getElem?_append_left (by omega), hgeti]
  · rw [hgen.1]
    have hc := List.getElem?_concat_length
      ((s.messages.set i (⟨msg.role, t⟩ : Message)).take (i + 1))
      (⟨Role.assistant, concatOutputs ps⟩ : Message)
    rw [hlen1] at hc
    exact hc
  · intro j hj
    rw [hgen.1, List.getElem?_append_left (by omega), hgetj j hj]

/-- Concrete ready-state with a three-entry history, for the C6 witness. -/
def editW : AppState :=
  { baseState with
      status := some St.ready,
      messages := [⟨Role.user, "a"⟩, ⟨Role.assistant, "b"⟩, ⟨Role.user, "c"⟩] }

/-- Closed witness for C6: editing index 0 of a three-entry history to
"x" while ready, then one update "ok" and completion. -/
theorem edit_truncate_regenerate_roundtrip_witness :
    editW.messages[0]? = some ⟨Role.user, "a"⟩
    ∧ (⟨Role.user, "a"⟩ : Message).role = Role.user
    ∧ editW.status = some St.ready
    ∧ ("x" : String) ≠ ""
    ∧ ((onEditMessage editW 0 "x").messages.length = 0 + 1
      ∧ (processEvents (generateEffect (onEditMessage editW 0 "x")).1
          (generationEvents [⟨"ok", none, 1, none⟩] "ok")).messages.length = 0 + 2
      ∧ (processEvents (generateEffect (onEditMessage editW 0 "x")).1
          (generationEvents [⟨"ok", none, 1, none⟩] "ok")).messages[0]?
          = some ⟨Role.user, "x"⟩
      ∧ (processEvents (generateEffect (onEditMessage editW 0 "x")).1
          (generationEvents [⟨"ok", none, 1, none⟩] "ok")).messages[0 + 1]?
          = some ⟨Role.assistant, concatOutputs [⟨"ok", none, 1, none⟩]⟩) :=
  have hfull := edit_truncate_regenerate_roundtrip editW 0 "x" ⟨Role.user, "a"⟩
    rfl rfl rfl (by decide) [⟨"ok", none, 1, none⟩] "ok"
  ⟨rfl, rfl, rfl, by decide,
    hfull.1, hfull.2.2.2.2.2.1, hfull.2.2.2.2.2.2.1, hfull.2.2.2.2.2.2.2.1⟩

end Privat
